import Mathlib

/-!
Shallow embedding of the OpenHornet 3A3A1 stick controller
(`3A3A1-STICK_CONTROLLER.ino`).  Machine floats are rendered as exact
rationals, machine integers as `Nat`/`Int` with explicit truncation where
the C code truncates, and the Arduino `loop()` as a step function on an
explicit state record.  C bit shifts and byte masks on EEPROM values are
rendered as division / multiplication / `% 256`, which agree exactly with
the source's shift-and-or composition because the composed bytes occupy
disjoint bit ranges.
-/

namespace Stick

/-- Constant `MT_ANGLE_FULL_SCALE = 2^21` from the source. -/
def MT_ANGLE_FULL_SCALE : Nat := 2097152

/-- Constant `RECENTER_HOLD_MS` (safe recenter hold time). -/
def RECENTER_HOLD_MS : Nat := 2000

/-- Constant `RECENTER_FORCE_HOLD_MS` (forced recenter hold time). -/
def RECENTER_FORCE_HOLD_MS : Nat := 6000

/-- Constant `RECENTER_MAX_ROLL_ERR_DEG = 1.2f`. -/
def RECENTER_MAX_ROLL_ERR_DEG : ℚ := 6/5

/-- Constant `RECENTER_MAX_PITCH_ERR_DEG = 1.2f`. -/
def RECENTER_MAX_PITCH_ERR_DEG : ℚ := 6/5

/-- Constant `HID_MIN = -32767`. -/
def HID_MIN : Int := -32767

/-- Constant `HID_MAX = 32767`. -/
def HID_MAX : Int := 32767

/-- Constant `ROLL_TOTAL_DEG = 31.0f`. -/
def ROLL_TOTAL_DEG : ℚ := 31

/-- Constant `ROLL_HALF_DEG = ROLL_TOTAL_DEG * 0.5f`. -/
def ROLL_HALF_DEG : ℚ := ROLL_TOTAL_DEG * (1/2)

/-- Constant `ROLL_SENSOR_TO_MECH_SCALE = 15.5f / 110.0f`. -/
def ROLL_SENSOR_TO_MECH_SCALE : ℚ := (31/2) / 110

/-- Constant `PITCH_TOTAL_DEG = 24.0f`. -/
def PITCH_TOTAL_DEG : ℚ := 24

/-- Constant `PITCH_CABRER_DEG` (aft/pull range, 2/3 of total). -/
def PITCH_CABRER_DEG : ℚ := PITCH_TOTAL_DEG * (2/3)

/-- Constant `PITCH_PIQUER_DEG` (forward/push range, 1/3 of total). -/
def PITCH_PIQUER_DEG : ℚ := PITCH_TOTAL_DEG * (1/3)

/-- Constant `DEADZONE_ROLL_DEG = 0.3f`. -/
def DEADZONE_ROLL_DEG : ℚ := 3/10

/-- Constant `DEADZONE_PITCH_DEG = 0.3f`. -/
def DEADZONE_PITCH_DEG : ℚ := 3/10

/-- Constant `INVERT_ROLL = false`. -/
def INVERT_ROLL : Bool := false

/-- Constant `INVERT_PITCH = false`. -/
def INVERT_PITCH : Bool := false

/-- Constant `EEPROM_MAGIC = 0x4A53434C`. -/
def EEPROM_MAGIC : Nat := 0x4A53434C

/-- Constant `EEPROM_ADDR_MAGIC = 0`. -/
def EEPROM_ADDR_MAGIC : Nat := 0

/-- Constant `EEPROM_ADDR_ROLL = EEPROM_ADDR_MAGIC + 4`. -/
def EEPROM_ADDR_ROLL : Nat := EEPROM_ADDR_MAGIC + 4

/-- Constant `EEPROM_ADDR_PITCH = EEPROM_ADDR_ROLL + 4`. -/
def EEPROM_ADDR_PITCH : Nat := EEPROM_ADDR_ROLL + 4

/-- Result of an MT6835 burst angle read (`struct MT6835_Result`). -/
structure MT6835_Result where
  angle21 : Nat
  status3 : Nat
  crc_ok : Bool
deriving DecidableEq

/-- Source `angle21ToDeg`: mask to 21 bits, then `360 * angle / 2^21`. -/
def angle21ToDeg (angle21 : Nat) : ℚ :=
  (360 * ((angle21 % 2^21 : Nat) : ℚ)) / (MT_ANGLE_FULL_SCALE : ℚ)

/-- First loop of `wrapDiffDeg`: `while (d > 180.0f) d -= 360.0f;`. -/
def wrapDown (d : ℚ) : ℚ :=
  if 180 < d then wrapDown (d - 360) else d
termination_by (⌈d⌉).toNat
decreasing_by
  rename_i h
  have h1 : (180 : ℤ) < ⌈d⌉ := Int.lt_ceil.mpr (by exact_mod_cast h)
  have h2 : ⌈d - 360⌉ = ⌈d⌉ - 360 := by
    exact_mod_cast Int.ceil_sub_int d (360 : ℤ)
  omega

/-- Second loop of `wrapDiffDeg`: `while (d < -180.0f) d += 360.0f;`. -/
def wrapUp (d : ℚ) : ℚ :=
  if d < -180 then wrapUp (d + 360) else d
termination_by (-⌊d⌋).toNat
decreasing_by
  rename_i h
  have h1 : ⌊d⌋ < (-180 : ℤ) := Int.floor_lt.mpr (by exact_mod_cast h)
  have h2 : ⌊d + 360⌋ = ⌊d⌋ + 360 := by
    exact_mod_cast Int.floor_add_int d (360 : ℤ)
  omega

/-- Source `wrapDiffDeg`: difference, then the two wrap loops in order. -/
def wrapDiffDeg (aDeg bDeg : ℚ) : ℚ :=
  wrapUp (wrapDown (aDeg - bDeg))

/-- The C cast `(int32_t)` applied to a real value: truncation toward zero. -/
def truncQ (q : ℚ) : Int :=
  if 0 ≤ q then ⌊q⌋ else ⌈q⌉

/-- The two leading clamp statements of `mapDegToHID_Symmetric`: clamp the
delta to `[-halfRange, halfRange]`. -/
def symClamp (deltaDeg halfRangeDeg : ℚ) : ℚ :=
  let d1 := if halfRangeDeg < deltaDeg then halfRangeDeg else deltaDeg
  if d1 < -halfRangeDeg then -halfRangeDeg else d1

/-- Source `mapDegToHID_Symmetric`: clamp to the half range, clamp the
deadzone, zero inside the deadzone, renormalized rescale outside it,
truncating cast and final clamp. -/
def mapDegToHID_Symmetric (deltaDeg halfRangeDeg deadzoneDeg : ℚ) : Int :=
  let d2 := symClamp deltaDeg halfRangeDeg
  let a := |d2|
  let dz1 := if deadzoneDeg < 0 then 0 else deadzoneDeg
  let dz2 := if halfRangeDeg < dz1 then halfRangeDeg else dz1
  if a ≤ dz2 then 0
  else
    let scaled := (a - dz2) / (halfRangeDeg - dz2)
    let signedNorm := if d2 < 0 then -scaled else scaled
    let v := truncQ (signedNorm * 32767)
    if HID_MAX < v then HID_MAX else if v < HID_MIN then HID_MIN else v

/-- Source `mapDegToHID_Asymmetric`: side-dependent range, degenerate-range
guard (`range < 0.001f`), side-specific clamps, then the same deadzone and
rescale shape as the symmetric map. -/
def mapDegToHID_Asymmetric (deltaDeg rangePosDeg rangeNegDeg deadzoneDeg : ℚ) : Int :=
  let range := if 0 ≤ deltaDeg then rangePosDeg else rangeNegDeg
  if range < 1/1000 then 0
  else
    let d1 := if rangePosDeg < deltaDeg then rangePosDeg else deltaDeg
    let d2 := if d1 < -rangeNegDeg then -rangeNegDeg else d1
    let a := |d2|
    let dz1 := if deadzoneDeg < 0 then 0 else deadzoneDeg
    let dz2 := if range < dz1 then range else dz1
    if a ≤ dz2 then 0
    else
      let scaled := (a - dz2) / (range - dz2)
      let signedNorm := if d2 < 0 then -scaled else scaled
      let v := truncQ (signedNorm * 32767)
      if HID_MAX < v then HID_MAX else if v < HID_MIN then HID_MIN else v

/-- One EEPROM cell update, `EEPROM.update(addr, (uint8_t)x)`: the stored
byte is `x % 256`. -/
def eepromWriteByte (e : Nat → Nat) (addr x : Nat) : Nat → Nat :=
  fun a => if a = addr then x % 256 else e a

/-- Source `eepromWriteU32`: four byte writes, little-endian; the C shifts
`v >> 8k` are the exact divisions `v / 2^(8k)`. -/
def eepromWriteU32 (e : Nat → Nat) (addr v : Nat) : Nat → Nat :=
  let e0 := eepromWriteByte e (addr + 0) v
  let e1 := eepromWriteByte e0 (addr + 1) (v / 2^8)
  let e2 := eepromWriteByte e1 (addr + 2) (v / 2^16)
  eepromWriteByte e2 (addr + 3) (v / 2^24)

/-- Source `eepromReadU32`: reassemble four bytes little-endian; the C
shift-and-or composition equals this sum because the bytes are disjoint. -/
def eepromReadU32 (e : Nat → Nat) (addr : Nat) : Nat :=
  (e (addr + 0) % 256) + (e (addr + 1) % 256) * 2^8 +
    (e (addr + 2) % 256) * 2^16 + (e (addr + 3) % 256) * 2^24

/-- Source `loadCentersFromEEPROM`.  The C function takes `r`, `p` by
reference and may write them even when it returns `false` (they are
assigned before the 21-bit range checks); the result triple is
`(r, p, returned bool)`.  The mask `& 0x1FFFFF` is `% 2^21`. -/
def loadCentersFromEEPROM (e : Nat → Nat) (r p : Nat) : Nat × Nat × Bool :=
  let magic := eepromReadU32 e EEPROM_ADDR_MAGIC
  if magic ≠ EEPROM_MAGIC then (r, p, false)
  else
    let r2 := eepromReadU32 e EEPROM_ADDR_ROLL
    let p2 := eepromReadU32 e EEPROM_ADDR_PITCH
    if r2 % 2^21 ≠ r2 then (r2, p2, false)
    else if p2 % 2^21 ≠ p2 then (r2, p2, false)
    else (r2, p2, true)

/-- Source `saveCentersToEEPROM`: magic plus both centers masked to 21
bits. -/
def saveCentersToEEPROM (e : Nat → Nat) (r p : Nat) : Nat → Nat :=
  let e1 := eepromWriteU32 e EEPROM_ADDR_MAGIC EEPROM_MAGIC
  let e2 := eepromWriteU32 e1 EEPROM_ADDR_ROLL (r % 2^21)
  eepromWriteU32 e2 EEPROM_ADDR_PITCH (p % 2^21)

/-- One iteration of the source CRC loop `mt_crc8_24bits_msb`: grab bit 7,
shift the 8-bit register left (truncating), conditionally xor the
polynomial `0x07`. -/
def mt_crc8_step (crc bit : Nat) : Nat :=
  let c7 := (crc >>> 7) &&& 1
  let crc2 := (crc <<< 1) % 256
  if c7 ^^^ bit ≠ 0 then crc2 ^^^ 0x07 else crc2

/-- CRC register after the first `n` iterations of the source loop
(`i = 23` down to `24 - n`), starting from `crc = 0`. -/
def mt_crc8_aux (data24 : Nat) : Nat → Nat
  | 0 => 0
  | n + 1 => mt_crc8_step (mt_crc8_aux data24 n) ((data24 >>> (23 - n)) &&& 1)

/-- Source `mt_crc8_24bits_msb`: all 24 iterations, MSB first. -/
def mt_crc8_24bits_msb (data24 : Nat) : Nat :=
  mt_crc8_aux data24 24

/-- Grip bit index `BIT_FIRE_TRIGGER_1E_CRAN = 23`. -/
def BIT_FIRE_TRIGGER_1E_CRAN : Nat := 23

/-- Grip bit index `BIT_RECCE_EVENT_MARK = 17`. -/
def BIT_RECCE_EVENT_MARK : Nat := 17

/-- Grip bit index `BIT_TRIM_NOSE_DOWN = 15`. -/
def BIT_TRIM_NOSE_DOWN : Nat := 15

/-- Grip bit index `BIT_TRIM_NOSE_UP = 13`. -/
def BIT_TRIM_NOSE_UP : Nat := 13

/-- Grip bit index `BIT_TRIM_LWD = 12`. -/
def BIT_TRIM_LWD : Nat := 12

/-- Grip bit index `BIT_TRIM_RWD = 14`. -/
def BIT_TRIM_RWD : Nat := 14

/-- Source `getBit24`: `(v >> bitIndex) & 0x01` as a boolean. -/
def getBit24 (v : Nat) (bitIndex : Nat) : Bool :=
  (v >>> bitIndex) &&& 1 = 1

/-- Source `computeHatFromTrim`, including the deliberate up/down swap of
the raw trim bits. -/
def computeHatFromTrim (grip24 : Nat) : Int :=
  let up := getBit24 grip24 BIT_TRIM_NOSE_DOWN
  let down := getBit24 grip24 BIT_TRIM_NOSE_UP
  let left := getBit24 grip24 BIT_TRIM_LWD
  let right := getBit24 grip24 BIT_TRIM_RWD
  if !up && !down && !left && !right then -1
  else if up && right then 45
  else if up && left then 315
  else if down && right then 135
  else if down && left then 225
  else if up then 0
  else if right then 90
  else if down then 180
  else if left then 270
  else -1

/-- Source `recenterComboPressed`: RECCE EVENT plus first trigger detent. -/
def recenterComboPressed (grip24 : Nat) : Bool :=
  getBit24 grip24 BIT_RECCE_EVENT_MARK && getBit24 grip24 BIT_FIRE_TRIGGER_1E_CRAN

/-- Unsigned 32-bit subtraction, as in `millis() - recenterStartMs`. -/
def sub32 (a b : Nat) : Nat :=
  (a % 2^32 + 2^32 - b % 2^32) % 2^32

/-- Inputs consumed by one `loop()` cycle: the two encoder reads, the raw
grip frame, and the `millis()` sample. -/
structure LoopInput where
  roll : MT6835_Result
  pitch : MT6835_Result
  gripRaw : Nat
  millis : Nat
deriving DecidableEq

/-- The mutable program state that survives between `loop()` cycles: the
static globals plus the `static` locals of `loop()` and the EEPROM
contents. -/
structure LoopState where
  lastGrip24 : Nat
  lastX : Int
  lastY : Int
  lastHat : Int
  rollCenter : Nat
  pitchCenter : Nat
  centersValid : Bool
  recenterArmed : Bool
  recenterStartMs : Nat
  recenterDoneThisHold : Bool
  recenterSafeTriedThisHold : Bool
  rollDegPrev : ℚ
  pitchDegPrev : ℚ
  eeprom : Nat → Nat

/-- Polarity normalization of the raw grip frame:
`grip24 = ~grip24 & 0xFFFFFF`. -/
def gripOf (inp : LoopInput) : Nat :=
  (inp.gripRaw ^^^ 0xFFFFFF) &&& 0xFFFFFF

/-- Whether the recenter combo is pressed in a cycle with this input. -/
def comboOf (inp : LoopInput) : Bool :=
  recenterComboPressed (gripOf inp)

/-- The recenter block of `loop()` (the `if (combo) ... else ...` section),
acting on the state with this cycle's readings, combo flag, `millis()`
sample and wrapped deltas. -/
def recenterUpdate (s : LoopState) (roll pitch : MT6835_Result) (combo : Bool)
    (millisNow : Nat) (rollDelta pitchDelta : ℚ) : LoopState :=
  if combo then
    if !s.recenterArmed then
      { s with recenterArmed := true, recenterStartMs := millisNow,
               recenterDoneThisHold := false, recenterSafeTriedThisHold := false }
    else if !s.recenterDoneThisHold then
      let held := sub32 millisNow s.recenterStartMs
      if RECENTER_FORCE_HOLD_MS ≤ held then
        if roll.crc_ok && pitch.crc_ok then
          { s with rollCenter := roll.angle21, pitchCenter := pitch.angle21,
                   eeprom := saveCentersToEEPROM s.eeprom roll.angle21 pitch.angle21,
                   centersValid := true, recenterDoneThisHold := true }
        else
          { s with recenterDoneThisHold := true }
      else if RECENTER_HOLD_MS ≤ held && !s.recenterSafeTriedThisHold then
        if !s.centersValid then
          if roll.crc_ok && pitch.crc_ok then
            { s with recenterSafeTriedThisHold := true,
                     rollCenter := roll.angle21, pitchCenter := pitch.angle21,
                     eeprom := saveCentersToEEPROM s.eeprom roll.angle21 pitch.angle21,
                     centersValid := true, recenterDoneThisHold := true }
          else
            { s with recenterSafeTriedThisHold := true, recenterDoneThisHold := true }
        else
          let rErr := |rollDelta|
          let pErr := |pitchDelta|
          let okPos := rErr ≤ RECENTER_MAX_ROLL_ERR_DEG ∧ pErr ≤ RECENTER_MAX_PITCH_ERR_DEG
          if okPos ∧ roll.crc_ok = true ∧ pitch.crc_ok = true then
            { s with recenterSafeTriedThisHold := true,
                     rollCenter := roll.angle21, pitchCenter := pitch.angle21,
                     eeprom := saveCentersToEEPROM s.eeprom roll.angle21 pitch.angle21,
                     recenterDoneThisHold := true }
          else
            { s with recenterSafeTriedThisHold := true }
      else s
    else s
  else
    { s with recenterArmed := false, recenterDoneThisHold := false,
             recenterSafeTriedThisHold := false }

/-- One full cycle of `loop()`: sensor resolution with hold-last-good,
wrapped deltas against the current centers, grip normalization, the
recenter block, axis mapping and the change-gated output caches. -/
def loopStep (s : LoopState) (inp : LoopInput) : LoopState :=
  let roll := inp.roll
  let pitch := inp.pitch
  let rollDeg := if roll.crc_ok then angle21ToDeg roll.angle21 else s.rollDegPrev
  let pitchDeg := if pitch.crc_ok then angle21ToDeg pitch.angle21 else s.pitchDegPrev
  let rollCenterDeg := angle21ToDeg s.rollCenter
  let pitchCenterDeg := angle21ToDeg s.pitchCenter
  let rollDelta0 := wrapDiffDeg rollDeg rollCenterDeg
  let pitchDelta0 := wrapDiffDeg pitchDeg pitchCenterDeg
  let rollDelta := if INVERT_ROLL then -rollDelta0 else rollDelta0
  let pitchDelta := if INVERT_PITCH then -pitchDelta0 else pitchDelta0
  let grip24 := gripOf inp
  let combo := recenterComboPressed grip24
  let s1 := recenterUpdate s roll pitch combo inp.millis rollDelta pitchDelta
  let rollDeltaMech := rollDelta * ROLL_SENSOR_TO_MECH_SCALE
  let x := mapDegToHID_Symmetric rollDeltaMech ROLL_HALF_DEG DEADZONE_ROLL_DEG
  let y := mapDegToHID_Asymmetric pitchDelta PITCH_PIQUER_DEG PITCH_CABRER_DEG DEADZONE_PITCH_DEG
  let hat := computeHatFromTrim grip24
  { s1 with
    rollDegPrev := rollDeg,
    pitchDegPrev := pitchDeg,
    lastX := if x ≠ s.lastX then x else s.lastX,
    lastY := if y ≠ s.lastY then y else s.lastY,
    lastGrip24 := if grip24 ≠ s.lastGrip24 then grip24 else s.lastGrip24,
    lastHat := if hat ≠ s.lastHat then hat else s.lastHat }

/-- A run of consecutive `loop()` cycles. -/
def runTrace (s : LoopState) (inputs : List LoopInput) : LoopState :=
  inputs.foldl loopStep s

/-- The calibration state named by the invariants: both centers, the
validity flag and the persisted EEPROM contents. -/
def calibOf (s : LoopState) : Nat × Nat × Bool × (Nat → Nat) :=
  (s.rollCenter, s.pitchCenter, s.centersValid, s.eeprom)

/-- One iteration of the bootstrap sampling loop in `setup()`: each axis
keeps its latest CRC-valid sample. -/
def setupSample (c : Nat × Nat) (rp : MT6835_Result × MT6835_Result) : Nat × Nat :=
  (if rp.1.crc_ok then rp.1.angle21 else c.1,
   if rp.2.crc_ok then rp.2.angle21 else c.2)

/-- The calibration part of `setup()`: load from EEPROM (the reference
parameters start at the globals' initial value 0); when invalid, fold the
bootstrap samples and persist unconditionally, marking valid. -/
def setupCalib (e : Nat → Nat) (samples : List (MT6835_Result × MT6835_Result)) :
    Nat × Nat × Bool × (Nat → Nat) :=
  let lr := loadCentersFromEEPROM e 0 0
  if lr.2.2 then (lr.1, lr.2.1, true, e)
  else
    let c := samples.foldl setupSample (lr.1, lr.2.1)
    (c.1, c.2, true, saveCentersToEEPROM e c.1 c.2)

/-- The most recent CRC-valid sample of a list, if any (specification-style
characterization of the bootstrap fold). -/
def lastValidSample (rs : List MT6835_Result) : Option MT6835_Result :=
  rs.reverse.find? (fun r => r.crc_ok)

/-- The roll degrees value used by a cycle (fresh reading when its CRC is
good, otherwise the held previous value). -/
def rollDegOf (s : LoopState) (inp : LoopInput) : ℚ :=
  if inp.roll.crc_ok then angle21ToDeg inp.roll.angle21 else s.rollDegPrev

/-- The pitch degrees value used by a cycle. -/
def pitchDegOf (s : LoopState) (inp : LoopInput) : ℚ :=
  if inp.pitch.crc_ok then angle21ToDeg inp.pitch.angle21 else s.pitchDegPrev

/-- The wrapped roll delta of a cycle versus the current center. -/
def rollDeltaOf (s : LoopState) (inp : LoopInput) : ℚ :=
  if INVERT_ROLL then -(wrapDiffDeg (rollDegOf s inp) (angle21ToDeg s.rollCenter))
  else wrapDiffDeg (rollDegOf s inp) (angle21ToDeg s.rollCenter)

/-- The wrapped pitch delta of a cycle versus the current center. -/
def pitchDeltaOf (s : LoopState) (inp : LoopInput) : ℚ :=
  if INVERT_PITCH then -(wrapDiffDeg (pitchDegOf s inp) (angle21ToDeg s.pitchCenter))
  else wrapDiffDeg (pitchDegOf s inp) (angle21ToDeg s.pitchCenter)

theorem calibOf_loopStep (s : LoopState) (inp : LoopInput) :
    calibOf (loopStep s inp) =
      calibOf (recenterUpdate s inp.roll inp.pitch (comboOf inp) inp.millis
        (rollDeltaOf s inp) (pitchDeltaOf s inp)) := rfl

theorem loopStep_armed (s : LoopState) (inp : LoopInput) :
    (loopStep s inp).recenterArmed =
      (recenterUpdate s inp.roll inp.pitch (comboOf inp) inp.millis
        (rollDeltaOf s inp) (pitchDeltaOf s inp)).recenterArmed := rfl

theorem loopStep_done (s : LoopState) (inp : LoopInput) :
    (loopStep s inp).recenterDoneThisHold =
      (recenterUpdate s inp.roll inp.pitch (comboOf inp) inp.millis
        (rollDeltaOf s inp) (pitchDeltaOf s inp)).recenterDoneThisHold := rfl

theorem loopStep_rollDegPrev (s : LoopState) (inp : LoopInput) :
    (loopStep s inp).rollDegPrev = rollDegOf s inp := rfl

theorem loopStep_pitchDegPrev (s : LoopState) (inp : LoopInput) :
    (loopStep s inp).pitchDegPrev = pitchDegOf s inp := rfl

/-- Fixture: an armed, not-yet-done hold state with valid calibration. -/
def witStateArmed : LoopState :=
  { lastGrip24 := 0, lastX := 0, lastY := 0, lastHat := -2,
    rollCenter := 0, pitchCenter := 0, centersValid := true,
    recenterArmed := true, recenterStartMs := 0,
    recenterDoneThisHold := false, recenterSafeTriedThisHold := false,
    rollDegPrev := 0, pitchDegPrev := 0, eeprom := fun _ => 0 }

/-- Fixture: an idle (unarmed) state with valid calibration. -/
def witStateIdle : LoopState :=
  { lastGrip24 := 0, lastX := 0, lastY := 0, lastHat := -2,
    rollCenter := 0, pitchCenter := 0, centersValid := true,
    recenterArmed := false, recenterStartMs := 0,
    recenterDoneThisHold := false, recenterSafeTriedThisHold := false,
    rollDegPrev := 0, pitchDegPrev := 0, eeprom := fun _ => 0 }

/-- Fixture: a cycle input at 6000 ms with both CRCs good and the combo
pressed (raw grip all zero is all-pressed after the active-low invert). -/
def witInputCommit : LoopInput :=
  { roll := ⟨5, 0, true⟩, pitch := ⟨7, 0, true⟩, gripRaw := 0, millis := 6000 }

/-- Fixture: a cycle input at 6000 ms with a roll CRC failure and the combo
pressed. -/
def witInputBadCrc : LoopInput :=
  { roll := ⟨5, 0, false⟩, pitch := ⟨7, 0, true⟩, gripRaw := 0, millis := 6000 }

/-- Fixture: a cycle input at 6000 ms with a pitch CRC failure (roll valid)
and the combo pressed. -/
def witInputBadCrcPitch : LoopInput :=
  { roll := ⟨5, 0, true⟩, pitch := ⟨7, 0, false⟩, gripRaw := 0, millis := 6000 }

/-- Fixture: a cycle input at 100 ms with both CRCs good and the combo
pressed. -/
def witInputShort : LoopInput :=
  { roll := ⟨5, 0, true⟩, pitch := ⟨7, 0, true⟩, gripRaw := 0, millis := 100 }

/-- Fixture: an EEPROM image whose magic matches but whose stored roll
center `2^21` fails the 21-bit range check, so `load` reports invalid after
having assigned the out-parameters. -/
def witBadEEPROM : Nat → Nat :=
  eepromWriteU32
    (eepromWriteU32 (eepromWriteU32 (fun _ => 0) EEPROM_ADDR_MAGIC EEPROM_MAGIC)
      EEPROM_ADDR_ROLL (2^21))
    EEPROM_ADDR_PITCH 0

/-- Fixture: eight bootstrap sample pairs, all with failing CRC. -/
def witBadSamples : List (MT6835_Result × MT6835_Result) :=
  List.replicate 8 (⟨0, 0, false⟩, ⟨0, 0, false⟩)

/-- Fixture: eight bootstrap sample pairs, all CRC-valid. -/
def witGoodSamples : List (MT6835_Result × MT6835_Result) :=
  List.replicate 8 (⟨3, 0, true⟩, ⟨4, 0, true⟩)

theorem RECENTER_HOLD_MS_val : RECENTER_HOLD_MS = 2000 := rfl

theorem RECENTER_FORCE_HOLD_MS_val : RECENTER_FORCE_HOLD_MS = 6000 := rfl

theorem recenterUpdate_calib_of_not_crc (s : LoopState) (roll pitch : MT6835_Result)
    (combo : Bool) (m : Nat) (rd pd : ℚ)
    (h : ¬(roll.crc_ok = true ∧ pitch.crc_ok = true)) :
    calibOf (recenterUpdate s roll pitch combo m rd pd) = calibOf s := by
  cases hr : roll.crc_ok <;> cases hp : pitch.crc_ok
  case true.true => exact absurd ⟨hr, hp⟩ h
  all_goals
    simp only [recenterUpdate, hr, hp, Bool.false_and, Bool.and_false, Bool.true_and,
      Bool.false_eq_true, if_false, false_and, and_false, true_and, and_true]
    split_ifs <;> rfl

theorem recenterUpdate_calib_of_short_hold (s : LoopState) (roll pitch : MT6835_Result)
    (combo : Bool) (m : Nat) (rd pd : ℚ)
    (h : s.recenterArmed = true → sub32 m s.recenterStartMs < RECENTER_HOLD_MS) :
    calibOf (recenterUpdate s roll pitch combo m rd pd) = calibOf s := by
  cases hcombo : combo
  · simp only [recenterUpdate, hcombo, Bool.false_eq_true, if_false]
    rfl
  · cases harm : s.recenterArmed
    · simp only [recenterUpdate, hcombo, harm, Bool.not_false, if_true, if_pos rfl]
      rfl
    · have hshort := h harm
      rw [RECENTER_HOLD_MS_val] at hshort
      have hforce : ¬ (RECENTER_FORCE_HOLD_MS ≤ sub32 m s.recenterStartMs) := by
        rw [RECENTER_FORCE_HOLD_MS_val]
        omega
      have hsafe : ¬ (RECENTER_HOLD_MS ≤ sub32 m s.recenterStartMs) := by
        rw [RECENTER_HOLD_MS_val]
        omega
      cases hdone : s.recenterDoneThisHold
      · simp only [recenterUpdate, hcombo, harm, hdone, hforce, hsafe, Bool.not_true,
          Bool.false_eq_true, if_false, decide_eq_false, Bool.false_and, if_pos rfl]
        split_ifs <;> first | rfl | simp_all
      · simp only [recenterUpdate, hcombo, harm, hdone, Bool.not_true, Bool.false_eq_true,
          if_false, if_pos rfl]
        split_ifs <;> rfl

theorem recenterUpdate_of_done (s : LoopState) (roll pitch : MT6835_Result)
    (m : Nat) (rd pd : ℚ)
    (harm : s.recenterArmed = true) (hdone : s.recenterDoneThisHold = true) :
    recenterUpdate s roll pitch true m rd pd = s := by
  unfold recenterUpdate
  simp [harm, hdone]

theorem recenterUpdate_force_no_crc (s : LoopState) (roll pitch : MT6835_Result)
    (m : Nat) (rd pd : ℚ)
    (harm : s.recenterArmed = true) (hdone : s.recenterDoneThisHold = false)
    (hheld : RECENTER_FORCE_HOLD_MS ≤ sub32 m s.recenterStartMs)
    (hcrc : ¬(roll.crc_ok = true ∧ pitch.crc_ok = true)) :
    recenterUpdate s roll pitch true m rd pd =
      { s with recenterDoneThisHold := true } := by
  unfold recenterUpdate
  have hand : (roll.crc_ok && pitch.crc_ok) = false := by
    revert hcrc
    cases roll.crc_ok <;> cases pitch.crc_ok <;> simp
  simp [harm, hdone, hheld, hand]

/-- Claim C3: in every cycle of the control loop, on every branch of the
recenter state machine, the calibration state (both centers, the validity
flag, and the persisted EEPROM record) is written only when both the roll
and the pitch encoder readings of that same cycle have `crc_ok = true`. -/
theorem calib_write_requires_both_crc (s : LoopState) (inp : LoopInput)
    (h : calibOf (loopStep s inp) ≠ calibOf s) :
    inp.roll.crc_ok = true ∧ inp.pitch.crc_ok = true := by
  by_contra hc
  exact h ((calibOf_loopStep s inp).trans
    (recenterUpdate_calib_of_not_crc s inp.roll inp.pitch (comboOf inp) inp.millis
      (rollDeltaOf s inp) (pitchDeltaOf s inp) hc))

/-- Witness for C3: a forced commit at 6000 ms with both CRCs good does
change the calibration, and the theorem applies to it. -/
theorem calib_write_requires_both_crc_witness :
    witInputCommit.roll.crc_ok = true ∧ witInputCommit.pitch.crc_ok = true :=
  calib_write_requires_both_crc witStateArmed witInputCommit (by
    intro h
    have h5 : (calibOf (loopStep witStateArmed witInputCommit)).1 = 5 := by decide
    rw [h] at h5
    exact absurd h5 (by decide))

/-- Claim C4: while the recenter combo is held with every cycle's elapsed
hold time still below `RECENTER_HOLD_MS`, no cycle of the run mutates the
calibration state. -/
theorem short_hold_never_mutates_calib (s : LoopState) (L : List LoopInput)
    (H : ∀ i, (hi : i < L.length) →
      comboOf (L.get ⟨i, hi⟩) = true ∧
      ((runTrace s (L.take i)).recenterArmed = true →
        sub32 (L.get ⟨i, hi⟩).millis (runTrace s (L.take i)).recenterStartMs
          < RECENTER_HOLD_MS)) :
    calibOf (runTrace s L) = calibOf s := by
  induction L generalizing s with
  | nil => rfl
  | cons a tl ih =>
    have h0 := H 0 (by simp)
    have hstep : calibOf (loopStep s a) = calibOf s := by
      rw [calibOf_loopStep]
      apply recenterUpdate_calib_of_short_hold
      intro harm
      simpa [runTrace] using h0.2 harm
    have IH : calibOf (runTrace (loopStep s a) tl) = calibOf (loopStep s a) := by
      apply ih
      intro i hi
      have := H (i + 1) (by simpa using Nat.succ_lt_succ hi)
      simpa [runTrace] using this
    exact IH.trans hstep

/-- Witness for C4: a one-cycle hold at 100 ms starting from the idle state
leaves the calibration unchanged. -/
theorem short_hold_never_mutates_calib_witness :
    calibOf (runTrace witStateIdle [witInputShort]) = calibOf witStateIdle :=
  short_hold_never_mutates_calib witStateIdle [witInputShort] (by
    intro i hi
    have hz : i = 0 := by
      have h1 : i < 1 := by simpa using hi
      omega
    subst hz
    constructor
    · show comboOf witInputShort = true
      decide
    · intro harm
      have hID : witStateIdle.recenterArmed = true := harm
      exact absurd hID (by decide))

/-- Claim C6: in any cycle where exactly one axis's reading fails CRC while
the other axis's reading is valid — whichever axis is the failing one — the
failing axis's degrees value is held at its prior-cycle value and the valid
axis's degrees value is updated from the fresh reading. -/
theorem crc_fail_holds_prev_degrees (s : LoopState) (inp : LoopInput) :
    (inp.roll.crc_ok = false → inp.pitch.crc_ok = true →
      (loopStep s inp).rollDegPrev = s.rollDegPrev ∧
        (loopStep s inp).pitchDegPrev = angle21ToDeg inp.pitch.angle21) ∧
    (inp.pitch.crc_ok = false → inp.roll.crc_ok = true →
      (loopStep s inp).pitchDegPrev = s.pitchDegPrev ∧
        (loopStep s inp).rollDegPrev = angle21ToDeg inp.roll.angle21) := by
  constructor
  · intro hr hp
    constructor
    · rw [loopStep_rollDegPrev, rollDegOf, hr]
      simp
    · rw [loopStep_pitchDegPrev, pitchDegOf, hp]
      simp
  · intro hp hr
    constructor
    · rw [loopStep_pitchDegPrev, pitchDegOf, hp]
      simp
    · rw [loopStep_rollDegPrev, rollDegOf, hr]
      simp

/-- Witness for C6, exercising both directions: a roll CRC failure with
pitch valid, and a pitch CRC failure with roll valid. -/
theorem crc_fail_holds_prev_degrees_witness :
    ((loopStep witStateArmed witInputBadCrc).rollDegPrev = witStateArmed.rollDegPrev ∧
      (loopStep witStateArmed witInputBadCrc).pitchDegPrev =
        angle21ToDeg witInputBadCrc.pitch.angle21) ∧
    ((loopStep witStateArmed witInputBadCrcPitch).pitchDegPrev = witStateArmed.pitchDegPrev ∧
      (loopStep witStateArmed witInputBadCrcPitch).rollDegPrev =
        angle21ToDeg witInputBadCrcPitch.roll.angle21) :=
  ⟨(crc_fail_holds_prev_degrees witStateArmed witInputBadCrc).1 (by decide) (by decide),
   (crc_fail_holds_prev_degrees witStateArmed witInputBadCrcPitch).2 (by decide) (by decide)⟩

theorem done_hold_preserves (L : List LoopInput) : ∀ s : LoopState,
    s.recenterArmed = true → s.recenterDoneThisHold = true →
    (∀ j ∈ L, comboOf j = true) →
    calibOf (runTrace s L) = calibOf s ∧
      (runTrace s L).recenterArmed = true ∧
      (runTrace s L).recenterDoneThisHold = true := by
  induction L with
  | nil => exact fun s h1 h2 _ => ⟨rfl, h1, h2⟩
  | cons a tl ih =>
    intro s h1 h2 hL
    have hca : comboOf a = true := hL a (by simp)
    have hru : recenterUpdate s a.roll a.pitch (comboOf a) a.millis
        (rollDeltaOf s a) (pitchDeltaOf s a) = s := by
      rw [hca]
      exact recenterUpdate_of_done s a.roll a.pitch a.millis _ _ h1 h2
    have harm1 : (loopStep s a).recenterArmed = true := by
      rw [loopStep_armed, hru]
      exact h1
    have hdone1 : (loopStep s a).recenterDoneThisHold = true := by
      rw [loopStep_done, hru]
      exact h2
    have hcal1 : calibOf (loopStep s a) = calibOf s := by
      rw [calibOf_loopStep, hru]
    have hrest := ih (loopStep s a) harm1 hdone1 (fun j hj => hL j (by simp [hj]))
    exact ⟨hrest.1.trans hcal1, hrest.2.1, hrest.2.2⟩

/-- Claim C10: when the force threshold is reached in a cycle where at
least one axis fails CRC, the hold is marked done without any commit, and
no calibration change can occur during the remainder of that continuous
hold. -/
theorem force_with_bad_crc_locks_out_hold (s : LoopState) (inp : LoopInput)
    (L : List LoopInput)
    (harm : s.recenterArmed = true) (hdone : s.recenterDoneThisHold = false)
    (hcombo : comboOf inp = true)
    (hheld : RECENTER_FORCE_HOLD_MS ≤ sub32 inp.millis s.recenterStartMs)
    (hcrc : ¬(inp.roll.crc_ok = true ∧ inp.pitch.crc_ok = true))
    (hL : ∀ j ∈ L, comboOf j = true) :
    (loopStep s inp).recenterDoneThisHold = true ∧
      calibOf (runTrace (loopStep s inp) L) = calibOf s := by
  have hru : recenterUpdate s inp.roll inp.pitch (comboOf inp) inp.millis
      (rollDeltaOf s inp) (pitchDeltaOf s inp) = { s with recenterDoneThisHold := true } := by
    rw [hcombo]
    exact recenterUpdate_force_no_crc s inp.roll inp.pitch inp.millis _ _ harm hdone hheld hcrc
  have hdone1 : (loopStep s inp).recenterDoneThisHold = true := by
    rw [loopStep_done, hru]
  have harm1 : (loopStep s inp).recenterArmed = true := by
    rw [loopStep_armed, hru]
    exact harm
  have hcal1 : calibOf (loopStep s inp) = calibOf s := by
    rw [calibOf_loopStep, hru]
    rfl
  have hrest := done_hold_preserves L (loopStep s inp) harm1 hdone1 hL
  exact ⟨hdone1, hrest.1.trans hcal1⟩

/-- Witness for C10: forced threshold met at 6000 ms with a roll CRC
failure, followed by an empty remainder of the hold. -/
theorem force_with_bad_crc_locks_out_hold_witness :
    (loopStep witStateArmed witInputBadCrc).recenterDoneThisHold = true ∧
      calibOf (runTrace (loopStep witStateArmed witInputBadCrc) []) =
        calibOf witStateArmed :=
  force_with_bad_crc_locks_out_hold witStateArmed witInputBadCrc []
    (by decide) (by decide) (by decide) (by decide) (by decide) (by simp)

theorem readU32_save_magic (e : Nat → Nat) (r p : Nat) :
    eepromReadU32 (saveCentersToEEPROM e r p) EEPROM_ADDR_MAGIC = EEPROM_MAGIC := by
  simp [eepromReadU32, saveCentersToEEPROM, eepromWriteU32, eepromWriteByte,
    EEPROM_ADDR_MAGIC, EEPROM_ADDR_ROLL, EEPROM_ADDR_PITCH, EEPROM_MAGIC]

theorem readU32_save_roll (e : Nat → Nat) (r p : Nat) :
    eepromReadU32 (saveCentersToEEPROM e r p) EEPROM_ADDR_ROLL = r % 2^21 := by
  simp only [eepromReadU32, saveCentersToEEPROM, eepromWriteU32, eepromWriteByte,
    EEPROM_ADDR_MAGIC, EEPROM_ADDR_ROLL, EEPROM_ADDR_PITCH]
  norm_num
  omega

theorem readU32_save_pitch (e : Nat → Nat) (r p : Nat) :
    eepromReadU32 (saveCentersToEEPROM e r p) EEPROM_ADDR_PITCH = p % 2^21 := by
  simp only [eepromReadU32, saveCentersToEEPROM, eepromWriteU32, eepromWriteByte,
    EEPROM_ADDR_MAGIC, EEPROM_ADDR_ROLL, EEPROM_ADDR_PITCH]
  norm_num
  omega

/-- Claim C7: for any 21-bit pair, saving the centers and loading them back
reports valid and returns exactly the stored values, whatever the prior
EEPROM contents and whatever the callers' in-out variables held. -/
theorem save_then_load_roundtrip (e : Nat → Nat) (r p r0 p0 : Nat)
    (hr : r < 2^21) (hp : p < 2^21) :
    loadCentersFromEEPROM (saveCentersToEEPROM e r p) r0 p0 = (r, p, true) := by
  have hm := readU32_save_magic e r p
  have hro := readU32_save_roll e r p
  have hpo := readU32_save_pitch e r p
  rw [Nat.mod_eq_of_lt hr] at hro
  rw [Nat.mod_eq_of_lt hp] at hpo
  simp [loadCentersFromEEPROM, hm, hro, hpo, Nat.mod_eq_of_lt hr, Nat.mod_eq_of_lt hp]
  split_ifs <;> first | rfl | omega

/-- Witness for C7 at a concrete EEPROM image and concrete centers. -/
theorem save_then_load_roundtrip_witness :
    loadCentersFromEEPROM (saveCentersToEEPROM (fun _ => 0) 5 6) 0 0 = (5, 6, true) :=
  save_then_load_roundtrip (fun _ => 0) 5 6 0 0 (by decide) (by decide)

theorem holdFold_eq_lastValid (rs : List MT6835_Result) (d : Nat) :
    rs.foldl (fun c x => if x.crc_ok then x.angle21 else c) d =
      (lastValidSample rs).elim d (fun x => x.angle21) := by
  induction rs generalizing d with
  | nil => simp [lastValidSample]
  | cons x rs ih =>
    rw [List.foldl_cons, ih]
    unfold lastValidSample
    rw [List.reverse_cons, List.find?_append]
    cases hfind : rs.reverse.find? (fun r => r.crc_ok) with
    | some y => simp
    | none => cases hx : x.crc_ok <;> simp [List.find?, hx]

theorem foldl_setupSample_fst (xs : List (MT6835_Result × MT6835_Result)) (a b : Nat) :
    (xs.foldl setupSample (a, b)).1 =
      (xs.map Prod.fst).foldl (fun c x => if x.crc_ok then x.angle21 else c) a := by
  induction xs generalizing a b with
  | nil => rfl
  | cons x xs ih =>
    rw [List.foldl_cons, List.map_cons, List.foldl_cons]
    exact ih _ _

theorem foldl_setupSample_snd (xs : List (MT6835_Result × MT6835_Result)) (a b : Nat) :
    (xs.foldl setupSample (a, b)).2 =
      (xs.map Prod.snd).foldl (fun c x => if x.crc_ok then x.angle21 else c) b := by
  induction xs generalizing a b with
  | nil => rfl
  | cons x xs ih =>
    rw [List.foldl_cons, List.map_cons, List.foldl_cons]
    exact ih _ _

/-- Counterexample to C5 as stated: with a matching magic but an
out-of-range stored roll center, `load` reports invalid yet leaves `2^21`
in the roll out-parameter; if the eight bootstrap cycles then produce zero
CRC-valid roll samples, the roll center after `setup()` is `2^21`, not the
claimed default 0 (the record is still persisted and marked valid). -/
theorem bootstrap_zero_default_counterexample :
    witBadSamples.all (fun rp => !rp.1.crc_ok && !rp.2.crc_ok) = true ∧
      witBadSamples.length = 8 ∧
      (loadCentersFromEEPROM witBadEEPROM 0 0).2.2 = false ∧
      (setupCalib witBadEEPROM witBadSamples).1 = 2097152 ∧
      (setupCalib witBadEEPROM witBadSamples).2.2.1 = true := by
  refine ⟨by decide, by decide, by decide, by decide, by decide⟩

/-- Claim C5 (amended): when `load()` reports invalid at startup, the
bootstrap folds the 8 sample pairs keeping each axis's most recent
CRC-valid sample, persists the result immediately and marks it valid; an
axis with zero valid samples keeps the value the failed load left in its
out-parameter (0 when the magic did not match, the raw stored value when
the magic matched but a center failed the 21-bit range check). -/
theorem bootstrap_amended (e : Nat → Nat)
    (samples : List (MT6835_Result × MT6835_Result))
    (hinv : (loadCentersFromEEPROM e 0 0).2.2 = false)
    (hlen : samples.length = 8) :
    setupCalib e samples =
      ((lastValidSample (samples.map Prod.fst)).elim
          (loadCentersFromEEPROM e 0 0).1 (fun x => x.angle21),
       (lastValidSample (samples.map Prod.snd)).elim
          (loadCentersFromEEPROM e 0 0).2.1 (fun x => x.angle21),
       true,
       saveCentersToEEPROM e
         ((lastValidSample (samples.map Prod.fst)).elim
           (loadCentersFromEEPROM e 0 0).1 (fun x => x.angle21))
         ((lastValidSample (samples.map Prod.snd)).elim
           (loadCentersFromEEPROM e 0 0).2.1 (fun x => x.angle21))) := by
  have h1 := foldl_setupSample_fst samples (loadCentersFromEEPROM e 0 0).1
    (loadCentersFromEEPROM e 0 0).2.1
  have h2 := foldl_setupSample_snd samples (loadCentersFromEEPROM e 0 0).1
    (loadCentersFromEEPROM e 0 0).2.1
  rw [holdFold_eq_lastValid] at h1 h2
  simp only [setupCalib, hinv, Bool.false_eq_true, if_false, h1, h2]

/-- Witness for C5 (amended): empty EEPROM (magic mismatch) and eight
CRC-valid sample pairs; the centers become the last samples (3, 4). -/
theorem bootstrap_amended_witness :
    setupCalib (fun _ => 0) witGoodSamples =
      ((lastValidSample (witGoodSamples.map Prod.fst)).elim
          (loadCentersFromEEPROM (fun _ => 0) 0 0).1 (fun x => x.angle21),
       (lastValidSample (witGoodSamples.map Prod.snd)).elim
          (loadCentersFromEEPROM (fun _ => 0) 0 0).2.1 (fun x => x.angle21),
       true,
       saveCentersToEEPROM (fun _ => 0)
         ((lastValidSample (witGoodSamples.map Prod.fst)).elim
           (loadCentersFromEEPROM (fun _ => 0) 0 0).1 (fun x => x.angle21))
         ((lastValidSample (witGoodSamples.map Prod.snd)).elim
           (loadCentersFromEEPROM (fun _ => 0) 0 0).2.1 (fun x => x.angle21))) :=
  bootstrap_amended (fun _ => 0) witGoodSamples (by decide) (by decide)

theorem wrapDown_eq (d : ℚ) :
    wrapDown d = if 180 < d then wrapDown (d - 360) else d := by
  rw [wrapDown]

theorem wrapUp_eq (d : ℚ) :
    wrapUp d = if d < -180 then wrapUp (d + 360) else d := by
  rw [wrapUp]

/-- Counterexample to C2 as stated: at `a = 0`, `b = 180` (both inside
`[0, 360)`) the code returns exactly `-180`, which lies outside the claimed
half-open interval `(-180, 180]`. -/
theorem wrapDiffDeg_interval_counterexample :
    wrapDiffDeg 0 180 = -180 ∧
      (0 : ℚ) ≤ 0 ∧ (0 : ℚ) < 360 ∧ (0 : ℚ) ≤ 180 ∧ (180 : ℚ) < 360 ∧
      ¬ (-180 < wrapDiffDeg 0 180) := by
  have h : wrapDiffDeg 0 180 = -180 := by
    rw [wrapDiffDeg, wrapDown_eq]
    norm_num
    rw [wrapUp_eq]
    norm_num
  refine ⟨h, by norm_num, by norm_num, by norm_num, by norm_num, ?_⟩
  rw [h]
  norm_num

/-- Claim C2 (amended): for angles in `[0, 360)` the wrapped difference
always lies in the closed interval `[-180, 180]` (the endpoint `-180` is
attained, e.g. by `wrapDiffDeg 0 180`), and `wrapDiffDeg a a = 0`. -/
theorem wrapDiffDeg_closed_interval (a b : ℚ)
    (ha0 : 0 ≤ a) (ha : a < 360) (hb0 : 0 ≤ b) (hb : b < 360) :
    (-180 ≤ wrapDiffDeg a b ∧ wrapDiffDeg a b ≤ 180) ∧ wrapDiffDeg a a = 0 := by
  constructor
  · rw [wrapDiffDeg]
    rcases lt_or_le 180 (a - b) with h1 | h1
    · rw [wrapDown_eq, if_pos h1, wrapDown_eq, if_neg (by linarith),
        wrapUp_eq, if_neg (by linarith)]
      constructor <;> linarith
    · rw [wrapDown_eq, if_neg (not_lt.mpr h1)]
      rcases lt_or_le (a - b) (-180) with h2 | h2
      · rw [wrapUp_eq, if_pos h2, wrapUp_eq, if_neg (by linarith)]
        constructor <;> linarith
      · rw [wrapUp_eq, if_neg (not_lt.mpr h2)]
        exact ⟨h2, h1⟩
  · rw [wrapDiffDeg, sub_self, wrapDown_eq, if_neg (by norm_num),
      wrapUp_eq, if_neg (by norm_num)]

/-- Witness for C2 (amended) at `a = 10`, `b = 350`. -/
theorem wrapDiffDeg_closed_interval_witness :
    (-180 ≤ wrapDiffDeg 10 350 ∧ wrapDiffDeg 10 350 ≤ 180) ∧
      wrapDiffDeg 10 10 = 0 :=
  wrapDiffDeg_closed_interval 10 350 (by norm_num) (by norm_num) (by norm_num)
    (by norm_num)

theorem truncQ_eq_zero_iff (q : ℚ) : truncQ q = 0 ↔ -1 < q ∧ q < 1 := by
  unfold truncQ
  split_ifs with h
  · rw [Int.floor_eq_zero_iff, Set.mem_Ico]
    constructor
    · rintro ⟨h1, h2⟩
      exact ⟨by linarith, h2⟩
    · rintro ⟨h1, h2⟩
      exact ⟨h, h2⟩
  · rw [Int.ceil_eq_zero_iff, Set.mem_Ioc]
    push_neg at h
    constructor
    · rintro ⟨h1, h2⟩
      exact ⟨h1, by linarith⟩
    · rintro ⟨h1, h2⟩
      exact ⟨h1, by linarith⟩

theorem truncQ_pos_iff (q : ℚ) : 0 < truncQ q ↔ 1 ≤ q := by
  unfold truncQ
  split_ifs with h
  · rw [Int.lt_iff_add_one_le, zero_add, Int.le_floor]
    norm_num
  · push_neg at h
    constructor
    · intro hpos
      have hle : ⌈q⌉ ≤ 0 := Int.ceil_le.mpr (by exact_mod_cast le_of_lt h)
      omega
    · intro h1
      linarith

theorem truncQ_neg_iff (q : ℚ) : truncQ q < 0 ↔ q ≤ -1 := by
  unfold truncQ
  split_ifs with h
  · constructor
    · intro hneg
      have hge : (0:ℤ) ≤ ⌊q⌋ := Int.floor_nonneg.mpr h
      omega
    · intro h1
      linarith
  · have h2 : (⌈q⌉ < 0) ↔ (⌈q⌉ ≤ -1) := by omega
    rw [h2, Int.ceil_le]
    norm_num

theorem truncQ_le_32767 (q : ℚ) (h : q ≤ 32767) : truncQ q ≤ 32767 := by
  unfold truncQ
  split_ifs with h0
  · have h1 : ((⌊q⌋ : ℚ)) ≤ 32767 := le_trans (Int.floor_le q) h
    exact_mod_cast h1
  · push_neg at h0
    have h1 : ⌈q⌉ ≤ 0 := Int.ceil_le.mpr (by exact_mod_cast le_of_lt h0)
    omega

theorem truncQ_ge_neg32767 (q : ℚ) (h : -32767 ≤ q) : -32767 ≤ truncQ q := by
  unfold truncQ
  split_ifs with h0
  · have h1 : (0:ℤ) ≤ ⌊q⌋ := Int.floor_nonneg.mpr h0
    omega
  · have h1 : (-32767 : ℚ) ≤ (⌈q⌉ : ℚ) := le_trans h (Int.le_ceil q)
    exact_mod_cast h1

theorem symClamp_sign (delta hR : ℚ) (hR0 : 0 < hR) :
    (0 < symClamp delta hR ↔ 0 < delta) ∧ (symClamp delta hR < 0 ↔ delta < 0) := by
  simp only [symClamp]
  split_ifs with h1 h2 h3 <;>
    exact ⟨⟨fun hx => by linarith, fun hx => by linarith⟩,
           ⟨fun hx => by linarith, fun hx => by linarith⟩⟩

theorem symClamp_abs_le (delta hR : ℚ) (hR0 : 0 < hR) : |symClamp delta hR| ≤ hR := by
  simp only [symClamp]
  split_ifs with h1 h2 h3 <;> rw [abs_le] <;> constructor <;> linarith
/-- Claim C1 (amended): for `0 ≤ deadzone < halfRange` and a clamped delta
strictly outside the deadzone, a nonzero output always carries the sign of
the delta; but the output is 0 exactly when the rescaled magnitude
truncates to zero, i.e. when `(|clamped| - deadzone) * 32767` is below
`halfRange - deadzone` — so 0 also occurs for deltas slightly outside the
deadzone band, contrary to the original claim. -/
theorem mapSymmetric_amended (delta halfRange dz : ℚ)
    (hdz0 : 0 ≤ dz) (hdzr : dz < halfRange)
    (hout : dz < |symClamp delta halfRange|) :
    (mapDegToHID_Symmetric delta halfRange dz = 0 ↔
       (|symClamp delta halfRange| - dz) * 32767 < halfRange - dz) ∧
    (mapDegToHID_Symmetric delta halfRange dz ≠ 0 →
       (0 < mapDegToHID_Symmetric delta halfRange dz ↔ 0 < delta) ∧
       (mapDegToHID_Symmetric delta halfRange dz < 0 ↔ delta < 0)) := by
  have hR0 : 0 < halfRange := lt_of_le_of_lt hdz0 hdzr
  have hdenpos : 0 < halfRange - dz := by linarith
  have habs := symClamp_abs_le delta halfRange hR0
  have hsgn := symClamp_sign delta halfRange hR0
  have hspos : 0 < (|symClamp delta halfRange| - dz) / (halfRange - dz) :=
    div_pos (by linarith) hdenpos
  have hsle : (|symClamp delta halfRange| - dz) / (halfRange - dz) ≤ 1 := by
    rw [div_le_one hdenpos]
    linarith
  have hmap : mapDegToHID_Symmetric delta halfRange dz =
      truncQ ((if symClamp delta halfRange < 0
               then -((|symClamp delta halfRange| - dz) / (halfRange - dz))
               else (|symClamp delta halfRange| - dz) / (halfRange - dz)) * 32767) := by
    simp only [mapDegToHID_Symmetric]
    rw [if_neg (not_lt.mpr hdz0), if_neg (not_lt.mpr (le_of_lt hdzr)),
      if_neg (not_le.mpr hout)]
    have hle : (if symClamp delta halfRange < 0
        then -((|symClamp delta halfRange| - dz) / (halfRange - dz))
        else (|symClamp delta halfRange| - dz) / (halfRange - dz)) * 32767 ≤ 32767 := by
      split_ifs <;> linarith
    have hge : (-32767 : ℚ) ≤ (if symClamp delta halfRange < 0
        then -((|symClamp delta halfRange| - dz) / (halfRange - dz))
        else (|symClamp delta halfRange| - dz) / (halfRange - dz)) * 32767 := by
      split_ifs <;> linarith
    rw [if_neg, if_neg]
    · show ¬ _ < HID_MIN
      rw [HID_MIN]
      exact not_lt.mpr (truncQ_ge_neg32767 _ hge)
    · show ¬ HID_MAX < _
      rw [HID_MAX]
      exact not_lt.mpr (truncQ_le_32767 _ hle)
  rw [hmap]
  by_cases hneg : symClamp delta halfRange < 0
  · rw [if_pos hneg]
    have hq : -((|symClamp delta halfRange| - dz) / (halfRange - dz)) * 32767 < 0 := by
      nlinarith
    constructor
    · rw [truncQ_eq_zero_iff]
      constructor
      · rintro ⟨h1, h2⟩
        have h3 : (|symClamp delta halfRange| - dz) / (halfRange - dz) * 32767 < 1 := by
          nlinarith
        rw [div_mul_eq_mul_div, div_lt_one hdenpos] at h3
        exact h3
      · intro h1
        have h3 : (|symClamp delta halfRange| - dz) / (halfRange - dz) * 32767 < 1 := by
          rw [div_mul_eq_mul_div, div_lt_one hdenpos]
          exact h1
        constructor <;> nlinarith
    · intro hne
      have hvne : truncQ (-((|symClamp delta halfRange| - dz) / (halfRange - dz)) * 32767) ≤ 0 := by
        by_contra hx
        push_neg at hx
        rw [truncQ_pos_iff] at hx
        linarith
      constructor
      · constructor
        · intro hx
          exact absurd hx (not_lt.mpr hvne)
        · intro hx
          exfalso
          have hd := hsgn.2.mp hneg
          linarith
      · constructor
        · intro hx
          exact hsgn.2.mp hneg
        · intro hx
          rcases lt_or_eq_of_le hvne with h5 | h5
          · exact h5
          · exact absurd h5 hne
  · rw [if_neg hneg]
    push_neg at hneg
    have hq : 0 < (|symClamp delta halfRange| - dz) / (halfRange - dz) * 32767 := by
      nlinarith
    constructor
    · rw [truncQ_eq_zero_iff]
      constructor
      · rintro ⟨h1, h2⟩
        rw [div_mul_eq_mul_div, div_lt_one hdenpos] at h2
        exact h2
      · intro h1
        have h3 : (|symClamp delta halfRange| - dz) / (halfRange - dz) * 32767 < 1 := by
          rw [div_mul_eq_mul_div, div_lt_one hdenpos]
          exact h1
        exact ⟨by linarith, h3⟩
    · intro hne
      have hvge : 0 ≤ truncQ ((|symClamp delta halfRange| - dz) / (halfRange - dz) * 32767) := by
        by_contra hx
        push_neg at hx
        rw [truncQ_neg_iff] at hx
        linarith
      have hcpos : 0 < symClamp delta halfRange := by
        rcases lt_or_eq_of_le hneg with h5 | h5
        · exact h5
        · exfalso
          rw [← h5] at hout
          simp at hout
          linarith
      constructor
      · constructor
        · intro hx
          exact hsgn.1.mp hcpos
        · intro hx
          rcases lt_or_eq_of_le hvge with h5 | h5
          · exact h5
          · exact absurd h5.symm hne
      · constructor
        · intro hx
          omega
        · intro hx
          exfalso
          have := hsgn.2.mpr hx
          linarith


/-- Counterexample to C1 as stated: with `deadzone = 0 < halfRange = 40000`
and `delta = 1`, the clamped delta is strictly outside the deadzone yet the
output is 0, because the rescaled value `32767/40000` truncates to zero in
the `(int32_t)` cast. -/
theorem mapSymmetric_nonzero_counterexample :
    (0 : ℚ) ≤ 0 ∧ (0 : ℚ) < 40000 ∧ (0 : ℚ) < |symClamp 1 40000| ∧
      mapDegToHID_Symmetric 1 40000 0 = 0 := by
  refine ⟨le_refl 0, by norm_num, by norm_num [symClamp], ?_⟩
  norm_num [mapDegToHID_Symmetric, symClamp, truncQ, HID_MAX, HID_MIN]

/-- Witness for C1 (amended) at `delta = 1`, `halfRange = 2`,
`deadzone = 0`. -/
theorem mapSymmetric_amended_witness :
    (mapDegToHID_Symmetric 1 2 0 = 0 ↔ (|symClamp 1 2| - 0) * 32767 < 2 - 0) ∧
      (mapDegToHID_Symmetric 1 2 0 ≠ 0 →
        (0 < mapDegToHID_Symmetric 1 2 0 ↔ 0 < (1 : ℚ)) ∧
        (mapDegToHID_Symmetric 1 2 0 < 0 ↔ (1 : ℚ) < 0)) :=
  mapSymmetric_amended 1 2 0 (by norm_num) (by norm_num) (by norm_num [symClamp])

/-- Counterexample to C8 as stated: at `range = 1/2000` the asymmetric
mapper's degenerate-range guard (`range < 0.001`) returns 0, while the
symmetric mapper, which has no such guard, returns full scale. -/
theorem mapAsymmetric_reduces_counterexample :
    mapDegToHID_Asymmetric (1/2000) (1/2000) (1/2000) 0 ≠
      mapDegToHID_Symmetric (1/2000) (1/2000) 0 := by
  have h1 : mapDegToHID_Asymmetric (1/2000) (1/2000) (1/2000) 0 = 0 := by
    norm_num [mapDegToHID_Asymmetric]
  have h2 : mapDegToHID_Symmetric (1/2000) (1/2000) 0 = 32767 := by
    norm_num [mapDegToHID_Symmetric, symClamp, truncQ, HID_MAX, HID_MIN, abs_of_nonneg]
  rw [h1, h2]
  norm_num

/-- Claim C8 (amended): whenever the common range is at least the
degenerate-range threshold `0.001`, the asymmetric mapping with
`rangePos = rangeNeg = r` coincides with the symmetric mapping with
`halfRange = r`, for every delta and every deadzone. -/
theorem mapAsymmetric_reduces_to_symmetric (delta r dz : ℚ) (h : 1/1000 ≤ r) :
    mapDegToHID_Asymmetric delta r r dz = mapDegToHID_Symmetric delta r dz := by
  simp only [mapDegToHID_Asymmetric, mapDegToHID_Symmetric, symClamp, ite_self]
  rw [if_neg (not_lt.mpr h)]

/-- Witness for C8 (amended) at `delta = 1`, `r = 1`, `dz = 0`. -/
theorem mapAsymmetric_reduces_to_symmetric_witness :
    mapDegToHID_Asymmetric 1 1 1 0 = mapDegToHID_Symmetric 1 1 0 :=
  mapAsymmetric_reduces_to_symmetric 1 1 0 (by norm_num)

theorem shiftRight_xor (x y k : Nat) : (x ^^^ y) >>> k = (x >>> k) ^^^ (y >>> k) := by
  apply Nat.eq_of_testBit_eq
  intro i
  simp [Nat.testBit_shiftRight, Nat.testBit_xor]

theorem shiftLeft_xor (x y k : Nat) : (x ^^^ y) <<< k = (x <<< k) ^^^ (y <<< k) := by
  apply Nat.eq_of_testBit_eq
  intro i
  simp only [Nat.testBit_shiftLeft, Nat.testBit_xor]
  cases h : Decidable.decide (i ≥ k) <;> simp

theorem mod256_xor (x y : Nat) : (x ^^^ y) % 256 = (x % 256) ^^^ (y % 256) := by
  have e : (256 : Nat) = 2 ^ 8 := by norm_num
  rw [e, ← Nat.and_pow_two_sub_one_eq_mod, ← Nat.and_pow_two_sub_one_eq_mod,
    ← Nat.and_pow_two_sub_one_eq_mod, Nat.and_xor_distrib_right]

theorem bitAt_xor (x y k : Nat) :
    ((x ^^^ y) >>> k) &&& 1 = ((x >>> k) &&& 1) ^^^ ((y >>> k) &&& 1) := by
  rw [shiftRight_xor, Nat.and_xor_distrib_right]

theorem xorLeftComm (a b c : Nat) : a ^^^ (b ^^^ c) = b ^^^ (a ^^^ c) := by
  rw [← Nat.xor_assoc, Nat.xor_comm a b, Nat.xor_assoc]

theorem mt_crc8_step_xor (c1 c2 b1 b2 : Nat) (hb1 : b1 < 2) (hb2 : b2 < 2) :
    mt_crc8_step (c1 ^^^ c2) (b1 ^^^ b2) = mt_crc8_step c1 b1 ^^^ mt_crc8_step c2 b2 := by
  simp only [mt_crc8_step]
  rw [bitAt_xor, shiftLeft_xor, mod256_xor]
  have hA : (c1 >>> 7) &&& 1 < 2 := by
    rw [Nat.and_one_is_mod]
    exact Nat.mod_lt _ (by norm_num)
  have hB : (c2 >>> 7) &&& 1 < 2 := by
    rw [Nat.and_one_is_mod]
    exact Nat.mod_lt _ (by norm_num)
  have hA01 : (c1 >>> 7) &&& 1 = 0 ∨ (c1 >>> 7) &&& 1 = 1 := by omega
  have hB01 : (c2 >>> 7) &&& 1 = 0 ∨ (c2 >>> 7) &&& 1 = 1 := by omega
  have hb101 : b1 = 0 ∨ b1 = 1 := by omega
  have hb201 : b2 = 0 ∨ b2 = 1 := by omega
  rcases hA01 with h1 | h1 <;>
  rcases hB01 with h2 | h2 <;>
  rcases hb101 with h3 | h3 <;>
  rcases hb201 with h4 | h4 <;>
  rw [h1, h2, h3, h4] <;>
  norm_num <;>
  simp [Nat.xor_comm, Nat.xor_assoc, xorLeftComm, Nat.xor_cancel_left]
theorem mt_crc8_aux_xor (x y : Nat) : ∀ n,
    mt_crc8_aux (x ^^^ y) n = mt_crc8_aux x n ^^^ mt_crc8_aux y n := by
  intro n
  induction n with
  | zero => simp [mt_crc8_aux]
  | succ n ih =>
    show mt_crc8_step (mt_crc8_aux (x ^^^ y) n) (((x ^^^ y) >>> (23 - n)) &&& 1) = _
    rw [ih, bitAt_xor]
    have hx1 : (x >>> (23 - n)) &&& 1 < 2 := by
      rw [Nat.and_one_is_mod]
      exact Nat.mod_lt _ (by norm_num)
    have hy1 : (y >>> (23 - n)) &&& 1 < 2 := by
      rw [Nat.and_one_is_mod]
      exact Nat.mod_lt _ (by norm_num)
    exact mt_crc8_step_xor _ _ _ _ hx1 hy1

theorem mt_crc8_xor (x y : Nat) :
    mt_crc8_24bits_msb (x ^^^ y) = mt_crc8_24bits_msb x ^^^ mt_crc8_24bits_msb y :=
  mt_crc8_aux_xor x y 24

set_option maxRecDepth 4000 in
theorem mt_crc8_single_bit_nonzero : ∀ i < 24, mt_crc8_24bits_msb (2^i) ≠ 0 := by
  decide

/-- Claim C9: flipping any single bit of the 24-bit CRC input always
changes the CRC-8 (polynomial 0x07, MSB first) computed by the source
implementation. -/
theorem crc8_detects_single_bit_flip (data24 i : Nat)
    (hd : data24 < 2^24) (hi : i < 24) :
    mt_crc8_24bits_msb (data24 ^^^ 2^i) ≠ mt_crc8_24bits_msb data24 := by
  intro h
  have h1 := mt_crc8_xor data24 (2^i)
  rw [h] at h1
  have h2 : mt_crc8_24bits_msb data24 ^^^ mt_crc8_24bits_msb data24 =
      mt_crc8_24bits_msb data24 ^^^
        (mt_crc8_24bits_msb data24 ^^^ mt_crc8_24bits_msb (2^i)) :=
    congrArg (fun t => mt_crc8_24bits_msb data24 ^^^ t) h1
  rw [Nat.xor_cancel_left, Nat.xor_self] at h2
  exact mt_crc8_single_bit_nonzero i hi h2.symm

set_option maxRecDepth 4000 in
/-- Witness for C9 at `data24 = 0x123456`, flipped bit `i = 5`. -/
theorem crc8_detects_single_bit_flip_witness :
    mt_crc8_24bits_msb (0x123456 ^^^ 2^5) ≠ mt_crc8_24bits_msb 0x123456 :=
  crc8_detects_single_bit_flip 0x123456 5 (by decide) (by decide)

end Stick

